import Mathlib

set_option maxHeartbeats 1000000

/-!
Shallow embedding of `src/rust/src/soroban_proto_any.rs` from stellar-core:
the invocation orchestrator tail (output assembly, failure classification,
metrics), ledger-effect extraction, diagnostic-event encoding, the panic
barrier of `invoke_host_function`, the rent memory-size computation and the
protocol-specific module cache.  External collaborators (the soroban host
crate's XDR codecs, the wasm memory-cost function, the content hash and the
module-cache storage internals) are out of scope of the source file and are
modelled as explicit parameters or as a small explicit-state model, as
described in each doc comment.  Machine integers (`u32`/`u64`) are modelled
as `Nat`; the only arithmetic performed on them in the source is
`saturating_sub`, which coincides with truncated `Nat` subtraction.
-/

/-- Byte buffer returned across the FFI boundary (`RustBuf` in the source). -/
abbrev RustBuf := List Nat

/-- Byte buffer owned by the C++ side (`CxxBuf` in the source). -/
abbrev CxxBuf := List Nat

/-- Error types of the soroban `ScError` XDR union (the variants used by the
source file, plus the remaining ones for completeness). -/
inductive ScErrorType where
  | contract
  | wasmVm
  | context
  | storage
  | object
  | crypto
  | events
  | budget
  | value
  | auth
  deriving DecidableEq, Repr

/-- Error codes of the soroban `ScErrorCode` XDR enum. -/
inductive ScErrorCode where
  | arithDomain
  | indexBounds
  | invalidInput
  | missingValue
  | existingValue
  | exceededLimit
  | invalidAction
  | internalError
  | unexpectedType
  | unexpectedSize
  deriving DecidableEq, Repr

/-- A soroban error value: an error type (category) paired with a code.  This
models the `soroban_env_host::Error` held inside a `HostError`; the source
queries it only through `is_code` and `is_type`. -/
structure ScErrorVal where
  type_ : ScErrorType
  code : ScErrorCode
  deriving DecidableEq, Repr

/-- Mirrors `Error::is_code` of the host crate: the error's code equals `c`. -/
def ScErrorVal.is_code (e : ScErrorVal) (c : ScErrorCode) : Bool :=
  e.code == c

/-- Mirrors `Error::is_type` of the host crate: the error's type equals `t`. -/
def ScErrorVal.is_type (e : ScErrorVal) (t : ScErrorType) : Bool :=
  e.type_ == t

/-- A typed host error surfaced by the execution engine (`HostError`); the
source file reads only its `error` field. -/
structure HostError where
  error : ScErrorVal
  deriving DecidableEq, Repr

/-- The error value `(ScErrorType::Value, ScErrorCode::InternalError)` that
the source file produces on its own internal failure paths (bad key-hash
size, failed re-encoding). -/
def internal_error_value : ScErrorVal :=
  ⟨ScErrorType.value, ScErrorCode.internalError⟩

/-- TTL change of one entry, as produced by the execution engine
(`LedgerEntryChangeTtl` of `soroban_env_host::e2e_invoke`): the entry's key
hash and the old and new expiration ledgers.  The key hash is a byte vector
whose length the source checks at use sites. -/
structure LedgerEntryChangeTtl where
  key_hash : List Nat
  old_live_until_ledger : Nat
  new_live_until_ledger : Nat
  deriving DecidableEq, Repr

/-- Per-entry change produced by the execution engine
(`soroban_env_host::e2e_invoke::LedgerEntryChange`), restricted to the
fields the source file reads: the read-only flag, the optional new encoded
value, and the optional TTL change. -/
structure LedgerEntryChange where
  read_only : Bool
  encoded_new_value : Option RustBuf
  ttl_change : Option LedgerEntryChangeTtl
  deriving DecidableEq, Repr

/-- XDR `TtlEntry`: a 32-byte key hash and the expiration ledger. -/
structure TtlEntry where
  key_hash : List Nat
  live_until_ledger_seq : Nat
  deriving DecidableEq, Repr

/-- XDR `LedgerEntryData`, restricted to the single variant the source file
constructs. -/
inductive LedgerEntryData where
  | ttl (t : TtlEntry)
  deriving DecidableEq, Repr

/-- XDR `LedgerEntryExt`, restricted to the variant the source constructs. -/
inductive LedgerEntryExt where
  | v0
  deriving DecidableEq, Repr

/-- XDR `LedgerEntry` as built by `extract_ledger_effects`. -/
structure LedgerEntry where
  last_modified_ledger_seq : Nat
  data : LedgerEntryData
  ext : LedgerEntryExt
  deriving DecidableEq, Repr

/-- The synthesized TTL ledger entry built at lines 285-292 of the source:
`last_modified_ledger_seq` left at the default 0, data a `TtlEntry` carrying
the change's key hash and new expiration, extension `V0`. -/
def ttl_ledger_entry (tc : LedgerEntryChangeTtl) : LedgerEntry :=
  { last_modified_ledger_seq := 0
    data := LedgerEntryData.ttl
      { key_hash := tc.key_hash
        live_until_ledger_seq := tc.new_live_until_ledger }
    ext := LedgerEntryExt.v0 }

/-- The value part of one change in `extract_ledger_effects` (lines 268-272):
a non-read-only entry with an encoded new value contributes that value. -/
def new_value_effects (change : LedgerEntryChange) : List RustBuf :=
  if !change.read_only then
    match change.encoded_new_value with
    | some v => [v]
    | none => []
  else []

/-- The TTL part of one change in `extract_ledger_effects` (lines 275-298).
The XDR encoder for ledger entries (`non_metered_xdr_to_rust_buf`) lives in
the external host crate and is passed in as `enc`; an encoder failure is
mapped to `(Value, InternalError)` exactly as in the source, as is a key
hash that is not exactly 32 bytes (the `try_into::<[u8; 32]>` failure). -/
def ttl_effects (enc : LedgerEntry → Option RustBuf) (change : LedgerEntryChange) :
    Except ScErrorVal (List RustBuf) :=
  match change.ttl_change with
  | some tc =>
    if tc.new_live_until_ledger > tc.old_live_until_ledger then
      if tc.key_hash.length = 32 then
        match enc (ttl_ledger_entry tc) with
        | some buf => Except.ok [buf]
        | none => Except.error internal_error_value
      else Except.error internal_error_value
    else Except.ok []
  | none => Except.ok []

/-- One loop iteration of `extract_ledger_effects`: the value part followed
by the TTL part. -/
def change_effects (enc : LedgerEntry → Option RustBuf) (change : LedgerEntryChange) :
    Except ScErrorVal (List RustBuf) :=
  match ttl_effects enc change with
  | Except.error e => Except.error e
  | Except.ok ttl => Except.ok (new_value_effects change ++ ttl)

/-- `extract_ledger_effects` (source lines 261-302): folds the per-change
effects in order, propagating the first error. -/
def extract_ledger_effects (enc : LedgerEntry → Option RustBuf) :
    List LedgerEntryChange → Except ScErrorVal (List RustBuf)
  | [] => Except.ok []
  | change :: rest =>
    match change_effects enc change with
    | Except.error e => Except.error e
    | Except.ok hd =>
      match extract_ledger_effects enc rest with
      | Except.error e => Except.error e
      | Except.ok tl => Except.ok (hd ++ tl)

/-- A change is well-formed for TTL extraction when a strictly increased TTL
comes with a 32-byte key hash. -/
def ttl_hash_ok (change : LedgerEntryChange) : Bool :=
  match change.ttl_change with
  | some tc =>
    if tc.new_live_until_ledger > tc.old_live_until_ledger then
      tc.key_hash.length == 32
    else true
  | none => true

/-- Spec-side description of the effects of one change, following the spec's
words: for a non-read-only entry its new serialized value; for an entry
whose TTL strictly increased exactly one serialized TTL record carrying the
key hash and the new expiration ledger with last-modified-sequence at a
default.  `encT` is the (total) serializer for ledger entries. -/
def spec_change_effects (encT : LedgerEntry → RustBuf) (change : LedgerEntryChange) :
    List RustBuf :=
  (if !change.read_only then change.encoded_new_value.toList else [])
  ++ (match change.ttl_change with
      | some tc =>
        if tc.new_live_until_ledger > tc.old_live_until_ledger then
          [encT (ttl_ledger_entry tc)]
        else []
      | none => [])

/-- Spec-side description of the whole effect list: the per-change effect
lists concatenated in order. -/
def ledger_effects_spec (encT : LedgerEntry → RustBuf)
    (changes : List LedgerEntryChange) : List RustBuf :=
  changes.flatMap (spec_change_effects encT)

/-- XDR `ScVal`, restricted to the variants the source file constructs for
the failure diagnostic event. -/
inductive ScVal where
  | symbol (s : String)
  | error (e : ScErrorVal)
  | void
  deriving DecidableEq, Repr

/-- XDR `ContractEventType`. -/
inductive ContractEventType where
  | system
  | contract
  | diagnostic
  deriving DecidableEq, Repr

/-- XDR `ExtensionPoint`. -/
inductive ExtensionPoint where
  | v0
  deriving DecidableEq, Repr

/-- XDR `ContractEventV0`: topics and data. -/
structure ContractEventV0 where
  topics : List ScVal
  data : ScVal
  deriving DecidableEq, Repr

/-- XDR `ContractEventBody`. -/
inductive ContractEventBody where
  | v0 (b : ContractEventV0)
  deriving DecidableEq, Repr

/-- XDR `ContractEvent`. -/
structure ContractEvent where
  ext : ExtensionPoint
  contract_id : Option (List Nat)
  type_ : ContractEventType
  body : ContractEventBody
  deriving DecidableEq, Repr

/-- XDR `DiagnosticEvent`. -/
structure DiagnosticEvent where
  in_successful_contract_call : Bool
  event : ContractEvent
  deriving DecidableEq, Repr

/-- `encode_diagnostic_events` (source lines 248-259): encodes each event
with the external XDR encoder `enc`, keeping the successful encodings in
order and silently dropping the failures (`filter_map`). -/
def encode_diagnostic_events (enc : DiagnosticEvent → Option RustBuf) :
    List DiagnosticEvent → List RustBuf
  | [] => []
  | e :: rest =>
    match enc e with
    | some buf => buf :: encode_diagnostic_events enc rest
    | none => encode_diagnostic_events enc rest

/-- The diagnostic event synthesized on failure (source lines 513-533): a
diagnostic-type event with no contract id whose body carries the marker
topic symbol "host_fn_failed" followed by the failure's error value, and
void data.  The `ScSymbol` conversion of the 14-byte literal and the
`ScError` conversion of the error value are total in this model. -/
def host_fn_failed_event (err : HostError) : DiagnosticEvent :=
  { in_successful_contract_call := false
    event :=
      { ext := ExtensionPoint.v0
        contract_id := none
        type_ := ContractEventType.diagnostic
        body := ContractEventBody.v0
          { topics := [ScVal.symbol "host_fn_failed", ScVal.error err.error]
            data := ScVal.void } } }

/-- `InvokeHostFunctionOutput` of the rust bridge: the output record the
orchestrator returns to C++. -/
structure InvokeHostFunctionOutput where
  success : Bool
  is_internal_error : Bool
  diagnostic_events : List RustBuf
  cpu_insns : Nat
  mem_bytes : Nat
  time_nsecs : Nat
  cpu_insns_excluding_vm_instantiation : Nat
  time_nsecs_excluding_vm_instantiation : Nat
  result_value : RustBuf
  modified_ledger_entries : List RustBuf
  contract_events : List RustBuf
  rent_fee : Int
  deriving DecidableEq, Repr

instance {ε α : Type} [DecidableEq ε] [DecidableEq α] : DecidableEq (Except ε α) := fun a b =>
  match a, b with
  | Except.ok x, Except.ok y =>
    if h : x = y then Decidable.isTrue (by rw [h]) else
      Decidable.isFalse (by intro hc; cases hc; exact h rfl)
  | Except.error x, Except.error y =>
    if h : x = y then Decidable.isTrue (by rw [h]) else
      Decidable.isFalse (by intro hc; cases hc; exact h rfl)
  | Except.ok _, Except.error _ => Decidable.isFalse (by intro hc; cases hc)
  | Except.error _, Except.ok _ => Decidable.isFalse (by intro hc; cases hc)

/-- Result record returned by the execution engine
(`e2e_invoke::invoke_host_function`), restricted to the fields the source
reads: the encoded invocation result (itself a result), the per-entry ledger
changes and the already-encoded contract events. -/
structure InvokeHostFunctionResult where
  encoded_invoke_result : Except HostError RustBuf
  ledger_changes : List LedgerEntryChange
  encoded_contract_events : List RustBuf
  deriving DecidableEq, Repr

/-- The internal-error classification of source lines 535-539: below
protocol 22 a failure is internal whenever its code is `InternalError`; from
protocol 22 on, only when additionally its type is not `Contract`. -/
def classify_is_internal_error (protocol_version : Nat) (e : ScErrorVal) : Bool :=
  if protocol_version < 22 then
    e.is_code ScErrorCode.internalError
  else
    e.is_code ScErrorCode.internalError && !(e.is_type ScErrorType.contract)

/-- The failure output assembled at source lines 512-556: when diagnostics
are enabled one `host_fn_failed` event is appended before encoding; the
output carries success = false, the internal-error classification, the
metric readings, and empty result, entries, events and zero rent fee. -/
def fail_output (encDiag : DiagnosticEvent → Option RustBuf)
    (protocol_version : Nat) (enable_diagnostics : Bool)
    (cpu_insns mem_bytes time_nsecs vm_cpu vm_time : Nat)
    (diagnostic_events : List DiagnosticEvent) (err : HostError) :
    InvokeHostFunctionOutput :=
  let diag :=
    if enable_diagnostics then diagnostic_events ++ [host_fn_failed_event err]
    else diagnostic_events
  { success := false
    is_internal_error := classify_is_internal_error protocol_version err.error
    diagnostic_events := encode_diagnostic_events encDiag diag
    cpu_insns := cpu_insns
    mem_bytes := mem_bytes
    time_nsecs := time_nsecs
    cpu_insns_excluding_vm_instantiation := cpu_insns - vm_cpu
    time_nsecs_excluding_vm_instantiation := time_nsecs - vm_time
    result_value := []
    modified_ledger_entries := []
    contract_events := []
    rent_fee := 0 }

/-- The error extracted by the `let err = match res ...` of source lines
478-511: the engine-level error, or the inner error of the encoded
invocation result; `none` when the invocation succeeded. -/
def invocation_failure :
    Except HostError InvokeHostFunctionResult → Option HostError
  | Except.error e => some e
  | Except.ok r =>
    match r.encoded_invoke_result with
    | Except.error e => some e
    | Except.ok _ => none

/-- The output-assembly tail of `invoke_host_function_or_maybe_panic`
(source lines 458-556), starting after the engine call.  The budget readings
(`cpu_insns`, `mem_bytes`, the VM-instantiation tracker values) and the
measured wall time are taken as inputs; the external rent-fee computation
(`extract_rent_changes` composed with `compute_rent_fee`) is the parameter
`rent_fee_of`, and the external XDR encoders are `encLE` and `encDiag`.
Both excluded-VM-instantiation metrics use truncated `Nat` subtraction,
matching the source's `saturating_sub`. -/
def invoke_result_assemble
    (encLE : LedgerEntry → Option RustBuf)
    (encDiag : DiagnosticEvent → Option RustBuf)
    (rent_fee_of : List LedgerEntryChange → Int)
    (protocol_version : Nat) (enable_diagnostics : Bool)
    (cpu_insns mem_bytes time_nsecs vm_cpu vm_time : Nat)
    (diagnostic_events : List DiagnosticEvent)
    (res : Except HostError InvokeHostFunctionResult) :
    Except ScErrorVal InvokeHostFunctionOutput :=
  match res with
  | Except.ok r =>
    match r.encoded_invoke_result with
    | Except.ok result_value =>
      match extract_ledger_effects encLE r.ledger_changes with
      | Except.error e => Except.error e
      | Except.ok modified =>
        Except.ok
          { success := true
            is_internal_error := false
            diagnostic_events := encode_diagnostic_events encDiag diagnostic_events
            cpu_insns := cpu_insns
            mem_bytes := mem_bytes
            time_nsecs := time_nsecs
            cpu_insns_excluding_vm_instantiation := cpu_insns - vm_cpu
            time_nsecs_excluding_vm_instantiation := time_nsecs - vm_time
            result_value := result_value
            modified_ledger_entries := modified
            contract_events := r.encoded_contract_events
            rent_fee := rent_fee_of r.ledger_changes }
    | Except.error e =>
      Except.ok (fail_output encDiag protocol_version enable_diagnostics
        cpu_insns mem_bytes time_nsecs vm_cpu vm_time diagnostic_events e)
  | Except.error e =>
    Except.ok (fail_output encDiag protocol_version enable_diagnostics
      cpu_insns mem_bytes time_nsecs vm_cpu vm_time diagnostic_events e)

/-- Payload of a caught unwind, as inspected at source lines 343-350: a
`String`, a static string, or anything else. -/
inductive PanicPayload where
  | ofString (s : String)
  | ofStaticStr (s : String)
  | other
  deriving DecidableEq, Repr

/-- Outcome of running a computation under `panic::catch_unwind`: either it
raised a crash-class fault carrying a payload, or it returned a value. -/
inductive UnwindResult (α : Type) where
  | panicked (payload : PanicPayload)
  | returned (value : α)

/-- `CoreHostError` of the source (lines 109-114): a typed host error or a
general message. -/
inductive CoreHostError where
  | host (h : ScErrorVal)
  | general (msg : String)
  deriving DecidableEq, Repr

/-- The message built from a caught panic payload (source lines 343-350). -/
def panic_message : PanicPayload → String
  | PanicPayload.ofString s => "contract host panicked: " ++ s
  | PanicPayload.ofStaticStr s => "contract host panicked: " ++ s
  | PanicPayload.other => "contract host panicked"

/-- The fault barrier of `invoke_host_function` (source lines 310-354): the
inner call runs under `catch_unwind`; a caught crash-class fault is turned
into `CoreHostError::General` with a generic message, and a normal return is
passed through unchanged. -/
def invoke_host_function
    (inner : UnwindResult (Except CoreHostError InvokeHostFunctionOutput)) :
    Except CoreHostError InvokeHostFunctionOutput :=
  match inner with
  | UnwindResult.panicked p => Except.error (CoreHostError.general (panic_message p))
  | UnwindResult.returned r => r

/-- XDR `ContractCodeEntry`, kept opaque: the source only decodes it and
hands it to the external wasm memory-cost function. -/
structure ContractCodeEntry where
  code : List Nat
  deriving DecidableEq, Repr

/-- `ContractCostParams`: a table of cost-model parameters, kept opaque
(the source only decodes the tables and stores them in a budget). -/
abbrev ContractCostParams := List (Nat × Nat)

/-- The soroban `Budget` as configured by `Budget::try_from_configs`: a CPU
instruction limit, a memory byte limit and the two decoded cost-parameter
tables.  Validation performed inside the external host crate is not
represented; the source only constructs budgets and reads their counters. -/
structure Budget where
  cpu_insn_limit : Nat
  mem_byte_limit : Nat
  cpu_cost_params : ContractCostParams
  mem_cost_params : ContractCostParams
  deriving DecidableEq, Repr

/-- `Budget::try_from_configs`: records the limits and tables. -/
def Budget.try_from_configs (cpu_limit mem_limit : Nat)
    (cp mp : ContractCostParams) : Budget :=
  ⟨cpu_limit, mem_limit, cp, mp⟩

/-- Error of `contract_code_memory_size_for_rent`: a host error, or the
failure of the final `u32` conversion. -/
inductive RentSizeError where
  | host (e : ScErrorVal)
  | intConversion
  deriving DecidableEq, Repr

/-- Exclusive upper bound of `u32`. -/
def U32_LIMIT : Nat := 2 ^ 32

/-- `contract_code_memory_size_for_rent` (source lines 623-639): decode the
code entry and the two cost-parameter tables (decoders are the external
non-metered XDR readers, whose failure maps to `(Value, InternalError)`),
build a budget via `Budget::try_from_configs(0, 0, cpu, mem)` solely for
this computation, evaluate the external wasm memory-cost function against
it, and narrow the result to `u32`. -/
def contract_code_memory_size_for_rent
    (decode_code : CxxBuf → Option ContractCodeEntry)
    (decode_params : CxxBuf → Option ContractCostParams)
    (wasm_module_memory_cost : Budget → ContractCodeEntry → Except ScErrorVal Nat)
    (contract_code_entry_xdr cpu_cost_params mem_cost_params : CxxBuf) :
    Except RentSizeError Nat :=
  match decode_code contract_code_entry_xdr with
  | none => Except.error (RentSizeError.host internal_error_value)
  | some entry =>
    match decode_params cpu_cost_params with
    | none => Except.error (RentSizeError.host internal_error_value)
    | some cp =>
      match decode_params mem_cost_params with
      | none => Except.error (RentSizeError.host internal_error_value)
      | some mp =>
        let budget := Budget.try_from_configs 0 0 cp mp
        match wasm_module_memory_cost budget entry with
        | Except.error e => Except.error (RentSizeError.host e)
        | Except.ok n =>
          if n < U32_LIMIT then Except.ok n else Except.error RentSizeError.intConversion

/-- A 32-byte content hash keying the module cache. -/
abbrev ModuleKey := List Nat

/-- Explicit-state model of the shared side of the module cache: a heap
mapping cache references (`Arc` identities) to stores of compiled-module
keys, plus an allocator for fresh references.  The compiled artifacts
themselves are irrelevant to membership and are not modelled. -/
structure CacheWorld where
  heap : Nat → List ModuleKey
  next_ref : Nat

/-- Update of one heap cell. -/
def heap_update (h : Nat → List ModuleKey) (r : Nat) (s : List ModuleKey) :
    Nat → List ModuleKey :=
  fun x => if x = r then s else h x

/-- `ProtocolSpecificModuleCache` (source lines 700-710): a shared-ownership
reference to the threadsafe module-cache store, plus the handle's private
memory-consumption counter. -/
structure ProtocolSpecificModuleCache where
  module_cache : Nat
  mem_bytes_consumed : Nat
  deriving DecidableEq, Repr

/-- `ProtocolSpecificModuleCache::new` (source lines 714-721): allocates a
fresh empty store and a zeroed counter. -/
def ProtocolSpecificModuleCache.new (w : CacheWorld) :
    ProtocolSpecificModuleCache × CacheWorld :=
  (⟨w.next_ref, 0⟩, ⟨heap_update w.heap w.next_ref [], w.next_ref + 1⟩)

/-- `ProtocolSpecificModuleCache::shallow_clone` (source lines 770-774):
builds a fresh handle via `new`, then replaces its store reference with a
clone of `self`'s (the same `Arc` identity), keeping the fresh zeroed
counter. -/
def ProtocolSpecificModuleCache.shallow_clone
    (self : ProtocolSpecificModuleCache) (w : CacheWorld) :
    ProtocolSpecificModuleCache × CacheWorld :=
  let fresh := ProtocolSpecificModuleCache.new w
  ({ fresh.1 with module_cache := self.module_cache }, fresh.2)

/-- `ProtocolSpecificModuleCache::compile` (source lines 723-737): parses
and inserts (or replaces) the module keyed by the content hash of the bytes
into the shared store, and adds the compilation's memory cost — measured by
a throwaway compilation context — to the handle's private counter.  The
content hash and the per-compilation memory cost are computed by the
external host crate and are passed as parameters. -/
def ProtocolSpecificModuleCache.compile
    (self : ProtocolSpecificModuleCache)
    (content_hash : List Nat → ModuleKey) (compile_mem_cost : List Nat → Nat)
    (wasm : List Nat) (w : CacheWorld) :
    ProtocolSpecificModuleCache × CacheWorld :=
  let store := (w.heap self.module_cache).insert (content_hash wasm)
  ({ self with mem_bytes_consumed := self.mem_bytes_consumed + compile_mem_cost wasm },
   { w with heap := heap_update w.heap self.module_cache store })

/-- `ProtocolSpecificModuleCache::contains_module` (source lines 748-753):
membership of a key in the handle's shared store. -/
def ProtocolSpecificModuleCache.contains_module
    (self : ProtocolSpecificModuleCache) (key : ModuleKey) (w : CacheWorld) : Bool :=
  decide (key ∈ w.heap self.module_cache)

/-- `ProtocolSpecificModuleCache::get_mem_bytes_consumed` (source lines
755-759): reads the handle's private counter. -/
def ProtocolSpecificModuleCache.get_mem_bytes_consumed
    (self : ProtocolSpecificModuleCache) : Nat :=
  self.mem_bytes_consumed

/-! ## Helper lemmas -/

theorem new_value_effects_eq (c : LedgerEntryChange) :
    new_value_effects c = (if !c.read_only then c.encoded_new_value.toList else []) := by
  unfold new_value_effects
  cases c.encoded_new_value <;> simp

theorem change_effects_total_spec (encT : LedgerEntry → RustBuf) (c : LedgerEntryChange)
    (hc : ttl_hash_ok c = true) :
    change_effects (fun le => some (encT le)) c = Except.ok (spec_change_effects encT c) := by
  cases httl : c.ttl_change with
  | none =>
    simp [change_effects, ttl_effects, spec_change_effects, httl, new_value_effects_eq]
  | some tc =>
    by_cases hgt : tc.new_live_until_ledger > tc.old_live_until_ledger
    · have hlen : tc.key_hash.length = 32 := by
        simpa [ttl_hash_ok, httl, hgt] using hc
      simp [change_effects, ttl_effects, spec_change_effects, httl, hgt, hlen,
        new_value_effects_eq]
    · simp [change_effects, ttl_effects, spec_change_effects, httl, hgt, new_value_effects_eq]

theorem ttl_effects_cases (enc : LedgerEntry → Option RustBuf) (c : LedgerEntryChange) :
    (∃ l, ttl_effects enc c = Except.ok l)
    ∨ ttl_effects enc c = Except.error internal_error_value := by
  cases httl : c.ttl_change with
  | none => exact Or.inl ⟨[], by simp [ttl_effects, httl]⟩
  | some tc =>
    by_cases hgt : tc.new_live_until_ledger > tc.old_live_until_ledger
    · by_cases hlen : tc.key_hash.length = 32
      · cases henc : enc (ttl_ledger_entry tc) with
        | none => exact Or.inr (by simp [ttl_effects, httl, hgt, hlen, henc])
        | some buf => exact Or.inl ⟨[buf], by simp [ttl_effects, httl, hgt, hlen, henc]⟩
      · exact Or.inr (by simp [ttl_effects, httl, hgt, hlen])
    · exact Or.inl ⟨[], by simp [ttl_effects, httl, hgt]⟩

theorem change_effects_cases (enc : LedgerEntry → Option RustBuf) (c : LedgerEntryChange) :
    (∃ l, change_effects enc c = Except.ok l)
    ∨ change_effects enc c = Except.error internal_error_value := by
  rcases ttl_effects_cases enc c with ⟨l, h⟩ | h
  · exact Or.inl ⟨new_value_effects c ++ l, by simp [change_effects, h]⟩
  · exact Or.inr (by simp [change_effects, h])

theorem change_effects_bad (enc : LedgerEntry → Option RustBuf) (c : LedgerEntryChange)
    (h : ttl_hash_ok c = false) :
    change_effects enc c = Except.error internal_error_value := by
  cases httl : c.ttl_change with
  | none => simp [ttl_hash_ok, httl] at h
  | some tc =>
    by_cases hgt : tc.new_live_until_ledger > tc.old_live_until_ledger
    · have hlen : ¬(tc.key_hash.length = 32) := by
        simpa [ttl_hash_ok, httl, hgt] using h
      simp [change_effects, ttl_effects, httl, hgt, hlen]
    · simp [ttl_hash_ok, httl, hgt] at h

theorem extract_ledger_effects_bad (enc : LedgerEntry → Option RustBuf)
    (changes : List LedgerEntryChange)
    (h : changes.any (fun c => !(ttl_hash_ok c)) = true) :
    extract_ledger_effects enc changes = Except.error internal_error_value := by
  induction changes with
  | nil => simp at h
  | cons c rest ih =>
    rw [List.any_cons, Bool.or_eq_true] at h
    rcases h with hbad | hrest
    · have hce := change_effects_bad enc c (by simpa using hbad)
      simp [extract_ledger_effects, hce]
    · rcases change_effects_cases enc c with ⟨l, hok⟩ | herr
      · simp [extract_ledger_effects, hok, ih hrest]
      · simp [extract_ledger_effects, herr]

theorem assemble_on_failure
    (encLE : LedgerEntry → Option RustBuf) (encDiag : DiagnosticEvent → Option RustBuf)
    (rent_fee_of : List LedgerEntryChange → Int)
    (protocol_version : Nat) (enable_diagnostics : Bool)
    (cpu_insns mem_bytes time_nsecs vm_cpu vm_time : Nat)
    (diagnostic_events : List DiagnosticEvent)
    (res : Except HostError InvokeHostFunctionResult) (err : HostError)
    (hfail : invocation_failure res = some err) :
    invoke_result_assemble encLE encDiag rent_fee_of protocol_version enable_diagnostics
        cpu_insns mem_bytes time_nsecs vm_cpu vm_time diagnostic_events res
      = Except.ok (fail_output encDiag protocol_version enable_diagnostics
          cpu_insns mem_bytes time_nsecs vm_cpu vm_time diagnostic_events err) := by
  cases res with
  | error e =>
    simp [invocation_failure] at hfail
    subst hfail
    rfl
  | ok r =>
    cases hres : r.encoded_invoke_result with
    | ok v => simp [invocation_failure, hres] at hfail
    | error e =>
      simp [invocation_failure, hres] at hfail
      subst hfail
      simp [invoke_result_assemble, hres]

/-! ## Claim theorems -/

/-- C1: for every failed invocation, the `is_internal_error` flag of the
output is true exactly when the failure's code is `InternalError` (protocol
version < 22), respectively when the code is `InternalError` and the error
type is not `Contract` (protocol version ≥ 22). -/
theorem invoke_failure_internal_error_classification
    (encLE : LedgerEntry → Option RustBuf) (encDiag : DiagnosticEvent → Option RustBuf)
    (rent_fee_of : List LedgerEntryChange → Int)
    (protocol_version : Nat) (enable_diagnostics : Bool)
    (cpu_insns mem_bytes time_nsecs vm_cpu vm_time : Nat)
    (diagnostic_events : List DiagnosticEvent)
    (res : Except HostError InvokeHostFunctionResult) (err : HostError)
    (out : InvokeHostFunctionOutput)
    (hfail : invocation_failure res = some err)
    (hout : invoke_result_assemble encLE encDiag rent_fee_of protocol_version
        enable_diagnostics cpu_insns mem_bytes time_nsecs vm_cpu vm_time
        diagnostic_events res = Except.ok out) :
    (out.is_internal_error = true ↔
      (if protocol_version < 22 then err.error.code = ScErrorCode.internalError
       else err.error.code = ScErrorCode.internalError
            ∧ err.error.type_ ≠ ScErrorType.contract)) := by
  rw [assemble_on_failure encLE encDiag rent_fee_of protocol_version enable_diagnostics
    cpu_insns mem_bytes time_nsecs vm_cpu vm_time diagnostic_events res err hfail] at hout
  rw [Except.ok.injEq] at hout
  subst hout
  by_cases hpv : protocol_version < 22 <;>
    simp [fail_output, classify_is_internal_error, ScErrorVal.is_code, ScErrorVal.is_type, hpv]

/-- Witness for C1 at the spec's own vignette: protocol 21, a failure of
code `InternalError` and type `Contract`, where the flag is true (and at
protocol 22 the amended condition would make it false). -/
theorem invoke_failure_internal_error_classification_witness :
    ((fail_output (fun _ => none) 21 true 5 6 7 1 2 []
        ⟨⟨ScErrorType.contract, ScErrorCode.internalError⟩⟩).is_internal_error = true ↔
      (if (21 : Nat) < 22 then
        (⟨⟨ScErrorType.contract, ScErrorCode.internalError⟩⟩ : HostError).error.code
          = ScErrorCode.internalError
       else
        (⟨⟨ScErrorType.contract, ScErrorCode.internalError⟩⟩ : HostError).error.code
          = ScErrorCode.internalError
        ∧ (⟨⟨ScErrorType.contract, ScErrorCode.internalError⟩⟩ : HostError).error.type_
          ≠ ScErrorType.contract)) :=
  invoke_failure_internal_error_classification (fun _ => none) (fun _ => none) (fun _ => 0)
    21 true 5 6 7 1 2 []
    (Except.error ⟨⟨ScErrorType.contract, ScErrorCode.internalError⟩⟩)
    ⟨⟨ScErrorType.contract, ScErrorCode.internalError⟩⟩
    (fail_output (fun _ => none) 21 true 5 6 7 1 2 []
      ⟨⟨ScErrorType.contract, ScErrorCode.internalError⟩⟩)
    rfl rfl

/-- C2: with a total serializer, the extractor produces exactly the
spec-described effect list — each non-read-only entry's new value, plus one
TTL record (key hash, new expiration, default last-modified-sequence) for
each entry whose TTL strictly increased, and nothing else — provided every
strictly-increased TTL change carries a 32-byte key hash. -/
theorem extract_ledger_effects_matches_spec
    (encT : LedgerEntry → RustBuf) (changes : List LedgerEntryChange)
    (h : changes.all ttl_hash_ok = true) :
    extract_ledger_effects (fun le => some (encT le)) changes
      = Except.ok (ledger_effects_spec encT changes) := by
  induction changes with
  | nil => rfl
  | cons c rest ih =>
    rw [List.all_cons, Bool.and_eq_true] at h
    have hc := change_effects_total_spec encT c h.1
    have hr := ih h.2
    simp [extract_ledger_effects, hc, hr, ledger_effects_spec]

/-- Witness for C2 at the spec's vignette: one writable entry whose TTL rose
from 10 to 110 yields its new value followed by exactly one TTL record. -/
theorem extract_ledger_effects_matches_spec_witness :
    ([({ read_only := false, encoded_new_value := some [1, 2],
          ttl_change := some ⟨List.replicate 32 0, 10, 110⟩ } : LedgerEntryChange)].all
        ttl_hash_ok = true)
    ∧ extract_ledger_effects (fun _ => some [9])
        [{ read_only := false, encoded_new_value := some [1, 2],
           ttl_change := some ⟨List.replicate 32 0, 10, 110⟩ }]
      = Except.ok (ledger_effects_spec (fun _ => [9])
          [{ read_only := false, encoded_new_value := some [1, 2],
             ttl_change := some ⟨List.replicate 32 0, 10, 110⟩ }]) :=
  ⟨by decide,
   extract_ledger_effects_matches_spec (fun _ => [9])
     [{ read_only := false, encoded_new_value := some [1, 2],
        ttl_change := some ⟨List.replicate 32 0, 10, 110⟩ }] (by decide)⟩

/-- C3: every crash-class fault raised inside the invocation is caught at
the `invoke_host_function` barrier and turned into a structured
`CoreHostError.general` value with the generic "contract host panicked"
message, while normal returns pass through unchanged; no fault ever
propagates past the barrier. -/
theorem invoke_host_function_catches_panics :
    (∀ p : PanicPayload, ∃ msg : String,
      invoke_host_function (UnwindResult.panicked p)
        = Except.error (CoreHostError.general msg))
    ∧ (∀ s : String,
      invoke_host_function (UnwindResult.panicked (PanicPayload.ofString s))
        = Except.error (CoreHostError.general ("contract host panicked: " ++ s)))
    ∧ (∀ s : String,
      invoke_host_function (UnwindResult.panicked (PanicPayload.ofStaticStr s))
        = Except.error (CoreHostError.general ("contract host panicked: " ++ s)))
    ∧ (invoke_host_function (UnwindResult.panicked PanicPayload.other)
        = Except.error (CoreHostError.general "contract host panicked"))
    ∧ (∀ r : Except CoreHostError InvokeHostFunctionOutput,
      invoke_host_function (UnwindResult.returned r) = r) :=
  ⟨fun p => ⟨panic_message p, rfl⟩, fun _ => rfl, fun _ => rfl, rfl, fun _ => rfl⟩

/-- C4: every invocation failing with a host-level error yields an output
with success = false, empty result value, empty modified-entries list, empty
contract-events list, rent fee 0, and all metric fields populated from the
budget readings and wall time collected before the failure. -/
theorem invoke_failure_output_shape
    (encLE : LedgerEntry → Option RustBuf) (encDiag : DiagnosticEvent → Option RustBuf)
    (rent_fee_of : List LedgerEntryChange → Int)
    (protocol_version : Nat) (enable_diagnostics : Bool)
    (cpu_insns mem_bytes time_nsecs vm_cpu vm_time : Nat)
    (diagnostic_events : List DiagnosticEvent)
    (res : Except HostError InvokeHostFunctionResult) (err : HostError)
    (out : InvokeHostFunctionOutput)
    (hfail : invocation_failure res = some err)
    (hout : invoke_result_assemble encLE encDiag rent_fee_of protocol_version
        enable_diagnostics cpu_insns mem_bytes time_nsecs vm_cpu vm_time
        diagnostic_events res = Except.ok out) :
    out.success = false
    ∧ out.result_value = []
    ∧ out.modified_ledger_entries = []
    ∧ out.contract_events = []
    ∧ out.rent_fee = 0
    ∧ out.cpu_insns = cpu_insns
    ∧ out.mem_bytes = mem_bytes
    ∧ out.time_nsecs = time_nsecs
    ∧ out.cpu_insns_excluding_vm_instantiation = cpu_insns - vm_cpu
    ∧ out.time_nsecs_excluding_vm_instantiation = time_nsecs - vm_time := by
  rw [assemble_on_failure encLE encDiag rent_fee_of protocol_version enable_diagnostics
    cpu_insns mem_bytes time_nsecs vm_cpu vm_time diagnostic_events res err hfail] at hout
  rw [Except.ok.injEq] at hout
  subst hout
  exact ⟨rfl, rfl, rfl, rfl, rfl, rfl, rfl, rfl, rfl, rfl⟩

/-- Witness for C4 at a concrete failing engine result. -/
theorem invoke_failure_output_shape_witness :
    (fail_output (fun _ => none) 22 false 11 12 13 3 4 []
        ⟨⟨ScErrorType.budget, ScErrorCode.exceededLimit⟩⟩).success = false
    ∧ (fail_output (fun _ => none) 22 false 11 12 13 3 4 []
        ⟨⟨ScErrorType.budget, ScErrorCode.exceededLimit⟩⟩).result_value = []
    ∧ (fail_output (fun _ => none) 22 false 11 12 13 3 4 []
        ⟨⟨ScErrorType.budget, ScErrorCode.exceededLimit⟩⟩).modified_ledger_entries = []
    ∧ (fail_output (fun _ => none) 22 false 11 12 13 3 4 []
        ⟨⟨ScErrorType.budget, ScErrorCode.exceededLimit⟩⟩).contract_events = []
    ∧ (fail_output (fun _ => none) 22 false 11 12 13 3 4 []
        ⟨⟨ScErrorType.budget, ScErrorCode.exceededLimit⟩⟩).rent_fee = 0
    ∧ (fail_output (fun _ => none) 22 false 11 12 13 3 4 []
        ⟨⟨ScErrorType.budget, ScErrorCode.exceededLimit⟩⟩).cpu_insns = 11
    ∧ (fail_output (fun _ => none) 22 false 11 12 13 3 4 []
        ⟨⟨ScErrorType.budget, ScErrorCode.exceededLimit⟩⟩).mem_bytes = 12
    ∧ (fail_output (fun _ => none) 22 false 11 12 13 3 4 []
        ⟨⟨ScErrorType.budget, ScErrorCode.exceededLimit⟩⟩).time_nsecs = 13
    ∧ (fail_output (fun _ => none) 22 false 11 12 13 3 4 []
        ⟨⟨ScErrorType.budget, ScErrorCode.exceededLimit⟩⟩).cpu_insns_excluding_vm_instantiation
      = 11 - 3
    ∧ (fail_output (fun _ => none) 22 false 11 12 13 3 4 []
        ⟨⟨ScErrorType.budget, ScErrorCode.exceededLimit⟩⟩).time_nsecs_excluding_vm_instantiation
      = 13 - 4 :=
  invoke_failure_output_shape (fun _ => none) (fun _ => none) (fun _ => 0)
    22 false 11 12 13 3 4 []
    (Except.error ⟨⟨ScErrorType.budget, ScErrorCode.exceededLimit⟩⟩)
    ⟨⟨ScErrorType.budget, ScErrorCode.exceededLimit⟩⟩
    (fail_output (fun _ => none) 22 false 11 12 13 3 4 []
      ⟨⟨ScErrorType.budget, ScErrorCode.exceededLimit⟩⟩)
    rfl rfl

/-- C5: for every invocation, successful or failed, the excluding-VM-
instantiation metrics equal the total consumed CPU instructions (resp. the
measured wall time) minus the VM-instantiation tracker's CPU (resp. time)
contribution, with truncated subtraction saturating at zero. -/
theorem metrics_exclude_vm_instantiation
    (encLE : LedgerEntry → Option RustBuf) (encDiag : DiagnosticEvent → Option RustBuf)
    (rent_fee_of : List LedgerEntryChange → Int)
    (protocol_version : Nat) (enable_diagnostics : Bool)
    (cpu_insns mem_bytes time_nsecs vm_cpu vm_time : Nat)
    (diagnostic_events : List DiagnosticEvent)
    (res : Except HostError InvokeHostFunctionResult)
    (out : InvokeHostFunctionOutput)
    (hout : invoke_result_assemble encLE encDiag rent_fee_of protocol_version
        enable_diagnostics cpu_insns mem_bytes time_nsecs vm_cpu vm_time
        diagnostic_events res = Except.ok out) :
    out.cpu_insns_excluding_vm_instantiation = cpu_insns - vm_cpu
    ∧ out.time_nsecs_excluding_vm_instantiation = time_nsecs - vm_time := by
  cases res with
  | error e =>
    simp only [invoke_result_assemble, Except.ok.injEq] at hout
    subst hout
    exact ⟨rfl, rfl⟩
  | ok r =>
    cases hres : r.encoded_invoke_result with
    | error e =>
      simp only [invoke_result_assemble, hres, Except.ok.injEq] at hout
      subst hout
      exact ⟨rfl, rfl⟩
    | ok v =>
      cases hex : extract_ledger_effects encLE r.ledger_changes with
      | error e2 => simp [invoke_result_assemble, hres, hex] at hout
      | ok modified =>
        simp only [invoke_result_assemble, hres, hex, Except.ok.injEq] at hout
        subst hout
        exact ⟨rfl, rfl⟩

/-- Witness for C5 on a failed invocation with vm_cpu exceeding cpu_insns,
exercising the saturation at zero. -/
theorem metrics_exclude_vm_instantiation_witness :
    (fail_output (fun _ => none) 20 true 2 8 9 7 20 []
        ⟨⟨ScErrorType.wasmVm, ScErrorCode.invalidAction⟩⟩).cpu_insns_excluding_vm_instantiation
      = 2 - 7
    ∧ (fail_output (fun _ => none) 20 true 2 8 9 7 20 []
        ⟨⟨ScErrorType.wasmVm, ScErrorCode.invalidAction⟩⟩).time_nsecs_excluding_vm_instantiation
      = 9 - 20 :=
  metrics_exclude_vm_instantiation (fun _ => none) (fun _ => none) (fun _ => 0)
    20 true 2 8 9 7 20 []
    (Except.error ⟨⟨ScErrorType.wasmVm, ScErrorCode.invalidAction⟩⟩)
    (fail_output (fun _ => none) 20 true 2 8 9 7 20 []
      ⟨⟨ScErrorType.wasmVm, ScErrorCode.invalidAction⟩⟩)
    rfl

/-- Counterexample to C6 as stated: the budget that
`contract_code_memory_size_for_rent` hands to the wasm memory-cost function
is not unlimited.  Probing the computation with a cost function that returns
the budget's CPU-instruction limit yields 0 — the source constructs the
budget via `Budget::try_from_configs(0, 0, ...)` — whereas an unlimited
budget (as `CoreCompilationContext::new` builds with `u64::MAX`) would have
limit 2^64 - 1. -/
theorem contract_rent_budget_not_unlimited :
    contract_code_memory_size_for_rent (fun _ => some ⟨[]⟩) (fun _ => some [])
        (fun b _ => Except.ok b.cpu_insn_limit) [] [] [] = Except.ok 0
    ∧ (0 : Nat) ≠ 2 ^ 64 - 1 :=
  ⟨rfl, by decide⟩

/-- C6 (amended): the standalone contract-code memory-footprint-for-rent
computation decodes the code entry and the cost-parameter tables and
evaluates the footprint against a dedicated internal budget constructed
solely for this one computation from the decoded tables — with zero CPU and
memory limits — never against the invocation's live Budget. -/
theorem contract_rent_uses_fresh_zero_limit_budget
    (decode_code : CxxBuf → Option ContractCodeEntry)
    (decode_params : CxxBuf → Option ContractCostParams)
    (wasm_module_memory_cost : Budget → ContractCodeEntry → Except ScErrorVal Nat)
    (code_buf cpu_buf mem_buf : CxxBuf)
    (entry : ContractCodeEntry) (cp mp : ContractCostParams)
    (h1 : decode_code code_buf = some entry)
    (h2 : decode_params cpu_buf = some cp)
    (h3 : decode_params mem_buf = some mp) :
    contract_code_memory_size_for_rent decode_code decode_params wasm_module_memory_cost
        code_buf cpu_buf mem_buf
      = match wasm_module_memory_cost (Budget.try_from_configs 0 0 cp mp) entry with
        | Except.error e => Except.error (RentSizeError.host e)
        | Except.ok n =>
          if n < U32_LIMIT then Except.ok n else Except.error RentSizeError.intConversion := by
  simp [contract_code_memory_size_for_rent, h1, h2, h3]

/-- Witness for the amended C6 at concrete decoders and cost function. -/
theorem contract_rent_uses_fresh_zero_limit_budget_witness :
    contract_code_memory_size_for_rent (fun _ => some ⟨[7]⟩) (fun _ => some [(1, 2)])
        (fun b e => Except.ok (b.cpu_insn_limit + b.mem_byte_limit + e.code.length))
        [4] [5] [6]
      = match (fun (b : Budget) (e : ContractCodeEntry) =>
            (Except.ok (b.cpu_insn_limit + b.mem_byte_limit + e.code.length)
              : Except ScErrorVal Nat))
            (Budget.try_from_configs 0 0 [(1, 2)] [(1, 2)]) ⟨[7]⟩ with
        | Except.error e => Except.error (RentSizeError.host e)
        | Except.ok n =>
          if n < U32_LIMIT then Except.ok n else Except.error RentSizeError.intConversion :=
  contract_rent_uses_fresh_zero_limit_budget (fun _ => some ⟨[7]⟩) (fun _ => some [(1, 2)])
    (fun b e => Except.ok (b.cpu_insn_limit + b.mem_byte_limit + e.code.length))
    [4] [5] [6] ⟨[7]⟩ [(1, 2)] [(1, 2)] rfl rfl rfl

/-- C7: on a failed invocation with diagnostics enabled, exactly one
diagnostic event is appended to the collected events before encoding, whose
body carries the fixed marker topic symbol "host_fn_failed" followed by the
failure's error value as its second topic. -/
theorem failure_appends_one_diagnostic_event
    (encLE : LedgerEntry → Option RustBuf) (encDiag : DiagnosticEvent → Option RustBuf)
    (rent_fee_of : List LedgerEntryChange → Int)
    (protocol_version : Nat)
    (cpu_insns mem_bytes time_nsecs vm_cpu vm_time : Nat)
    (diagnostic_events : List DiagnosticEvent)
    (res : Except HostError InvokeHostFunctionResult) (err : HostError)
    (out : InvokeHostFunctionOutput)
    (hfail : invocation_failure res = some err)
    (hout : invoke_result_assemble encLE encDiag rent_fee_of protocol_version
        true cpu_insns mem_bytes time_nsecs vm_cpu vm_time
        diagnostic_events res = Except.ok out) :
    out.diagnostic_events
      = encode_diagnostic_events encDiag (diagnostic_events ++ [host_fn_failed_event err])
    ∧ (host_fn_failed_event err).event.body
      = ContractEventBody.v0
          { topics := [ScVal.symbol "host_fn_failed", ScVal.error err.error]
            data := ScVal.void } := by
  rw [assemble_on_failure encLE encDiag rent_fee_of protocol_version true
    cpu_insns mem_bytes time_nsecs vm_cpu vm_time diagnostic_events res err hfail] at hout
  rw [Except.ok.injEq] at hout
  subst hout
  exact ⟨rfl, rfl⟩

/-- Witness for C7 at a concrete failing engine result with diagnostics
enabled. -/
theorem failure_appends_one_diagnostic_event_witness :
    (fail_output (fun _ => some []) 22 true 1 1 1 0 0 []
        ⟨⟨ScErrorType.contract, ScErrorCode.invalidInput⟩⟩).diagnostic_events
      = encode_diagnostic_events (fun _ => some [])
          ([] ++ [host_fn_failed_event ⟨⟨ScErrorType.contract, ScErrorCode.invalidInput⟩⟩])
    ∧ (host_fn_failed_event ⟨⟨ScErrorType.contract, ScErrorCode.invalidInput⟩⟩).event.body
      = ContractEventBody.v0
          { topics := [ScVal.symbol "host_fn_failed",
              ScVal.error (⟨⟨ScErrorType.contract, ScErrorCode.invalidInput⟩⟩
                : HostError).error]
            data := ScVal.void } :=
  failure_appends_one_diagnostic_event (fun _ => some []) (fun _ => some []) (fun _ => 0)
    22 1 1 1 0 0 []
    (Except.error ⟨⟨ScErrorType.contract, ScErrorCode.invalidInput⟩⟩)
    ⟨⟨ScErrorType.contract, ScErrorCode.invalidInput⟩⟩
    (fail_output (fun _ => some []) 22 true 1 1 1 0 0 []
      ⟨⟨ScErrorType.contract, ScErrorCode.invalidInput⟩⟩)
    rfl rfl

/-- C8: encoding a list of diagnostic events keeps, in order, exactly the
events that serialize successfully: writing the list as xs ++ e :: ys, the
result is the encoding of xs, then e's encoding if it succeeded and nothing
if it failed, then the encoding of ys — so one failed encoding never aborts
the call or affects the other events. -/
theorem encode_diagnostic_events_drops_failures_keeps_rest
    (enc : DiagnosticEvent → Option RustBuf) (xs ys : List DiagnosticEvent)
    (e : DiagnosticEvent) :
    encode_diagnostic_events enc (xs ++ e :: ys)
      = encode_diagnostic_events enc xs ++ (enc e).toList
        ++ encode_diagnostic_events enc ys := by
  induction xs with
  | nil => cases h : enc e <;> simp [encode_diagnostic_events, h]
  | cons x rest ih => cases h : enc x <;> simp [encode_diagnostic_events, h, ih]

/-- C9: duplicating a module-cache handle yields a handle whose memory
counter reads zero, whose store reference is the original's, whose own
compilations accumulate into its own counter starting from zero, and whose
compilations are visible to the original handle's membership checks. -/
theorem shallow_clone_shares_store_and_zeroes_counter
    (self : ProtocolSpecificModuleCache) (w : CacheWorld)
    (content_hash : List Nat → ModuleKey) (compile_mem_cost : List Nat → Nat)
    (wasm : List Nat) :
    (self.shallow_clone w).1.mem_bytes_consumed = 0
    ∧ (self.shallow_clone w).1.module_cache = self.module_cache
    ∧ ((self.shallow_clone w).1.compile content_hash compile_mem_cost wasm
        (self.shallow_clone w).2).1.mem_bytes_consumed = compile_mem_cost wasm
    ∧ self.contains_module (content_hash wasm)
        ((self.shallow_clone w).1.compile content_hash compile_mem_cost wasm
          (self.shallow_clone w).2).2 = true := by
  refine ⟨rfl, rfl, ?_, ?_⟩
  · simp [ProtocolSpecificModuleCache.compile, ProtocolSpecificModuleCache.shallow_clone,
      ProtocolSpecificModuleCache.new]
  · simp [ProtocolSpecificModuleCache.contains_module, ProtocolSpecificModuleCache.compile,
      ProtocolSpecificModuleCache.shallow_clone, ProtocolSpecificModuleCache.new,
      heap_update, List.mem_insert_iff]

/-- C10: a change list containing an entry whose TTL strictly increased but
whose key hash is not exactly 32 bytes makes the extractor return the
`(Value, InternalError)` error, and makes the orchestrator return an error
even though the execution engine reported success — instead of an output
with success = true. -/
theorem bad_ttl_key_hash_internal_error
    (encLE : LedgerEntry → Option RustBuf) (encDiag : DiagnosticEvent → Option RustBuf)
    (rent_fee_of : List LedgerEntryChange → Int)
    (protocol_version : Nat) (enable_diagnostics : Bool)
    (cpu_insns mem_bytes time_nsecs vm_cpu vm_time : Nat)
    (diagnostic_events : List DiagnosticEvent)
    (r : InvokeHostFunctionResult) (v : RustBuf)
    (hres : r.encoded_invoke_result = Except.ok v)
    (hbad : r.ledger_changes.any (fun c => !(ttl_hash_ok c)) = true) :
    extract_ledger_effects encLE r.ledger_changes = Except.error internal_error_value
    ∧ invoke_result_assemble encLE encDiag rent_fee_of protocol_version enable_diagnostics
        cpu_insns mem_bytes time_nsecs vm_cpu vm_time diagnostic_events (Except.ok r)
      = Except.error internal_error_value := by
  have hex := extract_ledger_effects_bad encLE r.ledger_changes hbad
  exact ⟨hex, by simp [invoke_result_assemble, hres, hex]⟩

/-- Witness for C10 at an engine success whose single change carries a
strictly increased TTL with a 2-byte key hash. -/
theorem bad_ttl_key_hash_internal_error_witness :
    extract_ledger_effects (fun _ => some [])
      ((⟨Except.ok [3], [⟨true, none, some ⟨[1, 2], 5, 9⟩⟩], []⟩
        : InvokeHostFunctionResult).ledger_changes)
      = Except.error internal_error_value
    ∧ invoke_result_assemble (fun _ => some []) (fun _ => some []) (fun _ => 0) 23 false
        1 2 3 4 5 []
        (Except.ok (⟨Except.ok [3], [⟨true, none, some ⟨[1, 2], 5, 9⟩⟩], []⟩
          : InvokeHostFunctionResult))
      = Except.error internal_error_value :=
  bad_ttl_key_hash_internal_error (fun _ => some []) (fun _ => some []) (fun _ => 0)
    23 false 1 2 3 4 5 []
    (⟨Except.ok [3], [⟨true, none, some ⟨[1, 2], 5, 9⟩⟩], []⟩ : InvokeHostFunctionResult)
    [3] rfl (by decide)
